import Mathlib

/-!
Verification of the MessageBoard calendar-of-events backend (src/app.py).

The Flask application is shallowly embedded: the SQLite tables `events` and
`event_images` become lists of structures, the uploads directory becomes a
list of stored names, and every API handler becomes a pure function from a
database state (plus the session flag) to a status code and a new state.
SQL `ORDER BY` is modelled as a stable sort (`List.insertionSort`) over the
table in insertion (rowid) order; `uuid.uuid4().hex` is modelled as a fresh
token drawn from a counter held in the state, reflecting the collision-free
assumption on 128-bit random identifiers; `CURRENT_TIMESTAMP` is a natural
number clock held in the state.
-/

namespace MessageBoard

/-- `ALLOWED_EXTENSIONS` from app.py line 23. -/
def ALLOWED_EXTENSIONS : List String := ["png", "jpg", "jpeg", "gif", "webp", "jfif"]

/-- The enumerated category set, as listed in `create_event` (line 321),
`get_events_by_category` (line 463) and the table CHECK constraint (line 59). -/
def validCategories : List String := ["general", "academic", "social", "spiritual", "career"]

/-- ASCII lower-casing of one character, as Python `str.lower` acts on the
ASCII extensions involved here. -/
def charToLower (c : Char) : Char :=
  if 65 ≤ c.toNat ∧ c.toNat ≤ 90 then Char.ofNat (c.toNat + 32) else c

/-- Python `s.lower()` (ASCII range). -/
def lowerStr (s : String) : String := String.mk (s.data.map charToLower)

/-- The characters after the last dot; the whole list when no dot occurs. -/
def afterLastDot (cs : List Char) : List Char :=
  (cs.reverse.takeWhile (fun c => !(c = '.'))).reverse

/-- Python `filename.rsplit(".", 1)[1]`: the part after the last dot (only
ever used under the guard that the name contains a dot). -/
def extOf (filename : String) : String := String.mk (afterLastDot filename.data)

/-- `allowed_file` from app.py lines 33-35:
`"." in filename and filename.rsplit(".", 1)[1].lower() in ALLOWED_EXTENSIONS`. -/
def allowed_file (filename : String) : Bool :=
  filename.data.contains '.' && ALLOWED_EXTENSIONS.contains (lowerStr (extOf filename))

/-- Approximation of werkzeug `secure_filename`: keep only safe characters.
Used only for the display-only `original_name` column; no claim depends on
its exact sanitisation rules. -/
def secure_filename (s : String) : String :=
  String.mk (s.toList.filter (fun c => c.isAlphanum || c = '.' || c = '-' || c = '_'))

/-- Lexicographic order on character lists by code point. SQLite compares TEXT
values with the BINARY collation (byte order of the UTF-8 encoding), which
agrees with code-point order; this executable comparison stands in for it. -/
def charsLt : List Char → List Char → Bool
  | _, [] => false
  | [], _ :: _ => true
  | a :: as, b :: bs =>
      if a.toNat < b.toNat then true
      else if b.toNat < a.toNat then false
      else charsLt as bs

/-- Strict BINARY-collation comparison of two TEXT values. -/
def strLt (s t : String) : Bool := charsLt s.data t.data

/-- Non-strict BINARY-collation comparison of two TEXT values. -/
def strLe (s t : String) : Bool := !(strLt t s)

/-- One uploaded multipart file; only its client-supplied name matters to the
control flow of app.py. -/
structure UploadFile where
  filename : String
deriving DecidableEq

/-- A generated on-disk filename `f"{uuid.uuid4().hex}.{ext}"` (app.py line 340):
an opaque token together with the lower-cased original extension. -/
structure StoredName where
  tok : Nat
  ext : String
deriving DecidableEq

/-- A row of the `events` table (app.py lines 51-64). -/
structure Event where
  id : Nat
  title : String
  description : String
  event_date : String
  event_time : String
  location : String
  category : String
  author : String
  author_initials : String
  created_at : Nat
deriving DecidableEq

/-- A row of the `event_images` table (app.py lines 67-76). -/
structure EventImage where
  id : Nat
  event_id : Nat
  filename : StoredName
  original_name : String
  uploaded_at : Nat
deriving DecidableEq

/-- The persistent state: the two tables, the uploads directory, the
AUTOINCREMENT counters, the fresh-token supply for uuid4, and the clock. -/
structure DB where
  events : List Event
  images : List EventImage
  files : List StoredName
  nextEventId : Nat
  nextImageId : Nat
  nextTok : Nat
  now : Nat
deriving DecidableEq

/-- The upload-handling loop body shared by `create_event` (lines 336-348) and
`update_event` (lines 386-396): skip the file unless its name is non-empty and
`allowed_file` accepts it; otherwise store the bytes under a fresh unique name
and insert an `event_images` row. -/
def processFile (event_id : Nat) (db : DB) (f : UploadFile) : DB :=
  if f.filename ≠ "" && allowed_file f.filename then
    let ext := lowerStr (extOf f.filename)
    let name : StoredName := ⟨db.nextTok, ext⟩
    { db with
      nextTok := db.nextTok + 1,
      files := db.files ++ [name],
      images := db.images ++
        [⟨db.nextImageId, event_id, name, secure_filename f.filename, db.now⟩],
      nextImageId := db.nextImageId + 1 }
  else db

/-- `for file in files:` over the uploaded list. -/
def processFiles (event_id : Nat) (db : DB) (fs : List UploadFile) : DB :=
  fs.foldl (processFile event_id) db

/-- The form fields of a create request; `data.get(field, default)` gives every
field a default (app.py lines 312-320). -/
structure CreateInput where
  title : String := ""
  description : String := ""
  event_date : String := ""
  event_time : String := ""
  location : String := ""
  author : String := ""
  author_initials : String := ""
  category : String := "general"
  files : List UploadFile := []
deriving DecidableEq

/-- `create_event` (app.py lines 305-353), guarded by `api_login_required`:
coerce an invalid category to general, insert the row, then process uploads.
Returns (status, new id, state). -/
def create_event (db : DB) (auth : Bool) (inp : CreateInput) : Nat × Nat × DB :=
  if auth = false then (401, 0, db) else
  let category := if validCategories.contains inp.category then inp.category else "general"
  let ev : Event :=
    { id := db.nextEventId, title := inp.title, description := inp.description,
      event_date := inp.event_date, event_time := inp.event_time,
      location := inp.location, category := category, author := inp.author,
      author_initials := inp.author_initials, created_at := db.now }
  let db1 := { db with events := db.events ++ [ev], nextEventId := db.nextEventId + 1 }
  (201, db.nextEventId, processFiles db.nextEventId db1 inp.files)

/-- An update request body: the submitted key/value pairs
(`request.form.to_dict()`). -/
abbrev FormData := List (String × String)

/-- `data[field]` for the first occurrence of a key, `none` when absent. -/
def lookupField (data : FormData) (k : String) : Option String :=
  (data.find? (fun p => p.1 = k)).map (fun p => p.2)

/-- The field list iterated by `update_event` (app.py line 373). -/
def updateFields : List String :=
  ["title", "description", "event_date", "event_time", "location", "category",
   "author", "author_initials"]

/-- The effect of `UPDATE events SET f = ? ...` for every field present in the
request (app.py lines 370-381): present fields are overwritten, absent fields
keep their stored value; `id` and `created_at` are never in the field list. -/
def applyUpdates (e : Event) (data : FormData) : Event :=
  { e with
    title := (lookupField data "title").getD e.title,
    description := (lookupField data "description").getD e.description,
    event_date := (lookupField data "event_date").getD e.event_date,
    event_time := (lookupField data "event_time").getD e.event_time,
    location := (lookupField data "location").getD e.location,
    category := (lookupField data "category").getD e.category,
    author := (lookupField data "author").getD e.author,
    author_initials := (lookupField data "author_initials").getD e.author_initials }

/-- The `CHECK(category IN (...))` constraint of the events table (app.py
line 59): an UPDATE that sets category to a value outside the set raises
sqlite3.IntegrityError, which `update_event` does not catch (a 500 response,
nothing committed). -/
def categoryCheckViolated (data : FormData) : Bool :=
  match lookupField data "category" with
  | some v => !(validCategories.contains v)
  | none => false

/-- `update_event` (app.py lines 356-401), guarded by `api_login_required`:
404 when the id resolves to no row, otherwise overwrite exactly the submitted
fields and process any uploaded files. -/
def update_event (db : DB) (auth : Bool) (event_id : Nat) (data : FormData)
    (files : List UploadFile) : Nat × DB :=
  if auth = false then (401, db) else
  if !(db.events.any (fun e => e.id = event_id)) then (404, db) else
  if categoryCheckViolated data then (500, db) else
  let db1 := { db with
    events := db.events.map (fun e => if e.id = event_id then applyUpdates e data else e) }
  (200, processFiles event_id db1 files)

/-- `delete_event` (app.py lines 404-430), guarded by `api_login_required`:
404 when the id resolves to no row; otherwise remove each backing file that
exists (`os.path.exists` check, line 420), then delete the image rows and the
event row. -/
def delete_event (db : DB) (auth : Bool) (event_id : Nat) : Nat × DB :=
  if auth = false then (401, db) else
  if !(db.events.any (fun e => e.id = event_id)) then (404, db) else
  let names := (db.images.filter (fun i => i.event_id = event_id)).map (fun i => i.filename)
  (200, { db with
      files := db.files.filter (fun f => !(names.contains f)),
      images := db.images.filter (fun i => !(i.event_id = event_id)),
      events := db.events.filter (fun e => !(e.id = event_id)) })

/-- `delete_image` (app.py lines 433-457), guarded by `api_login_required`:
404 when no image row matches both ids; otherwise remove the backing file if
it exists and delete the row. -/
def delete_image (db : DB) (auth : Bool) (event_id image_id : Nat) : Nat × DB :=
  if auth = false then (401, db) else
  match db.images.find? (fun i => i.id = image_id && i.event_id = event_id) with
  | none => (404, db)
  | some row =>
      (200, { db with
          files := db.files.filter (fun f => !(f = row.filename)),
          images := db.images.filter (fun i => !(i.id = image_id)) })

/-- `SELECT * FROM event_images WHERE event_id = ?` (app.py line 208). -/
def imagesFor (db : DB) (event_id : Nat) : List EventImage :=
  db.images.filter (fun i => i.event_id = event_id)

/-- `ORDER BY event_date ASC, created_at DESC` of `get_events` (line 202). -/
def eventOrder (a b : Event) : Prop :=
  strLt a.event_date b.event_date = true ∨
    (a.event_date = b.event_date ∧ b.created_at ≤ a.created_at)

/-- `ORDER BY event_date ASC` of `get_events_by_category` (line 471): no
secondary key. -/
def dateOrder (a b : Event) : Prop := strLe a.event_date b.event_date = true

instance : DecidableRel eventOrder := fun a b =>
  decidable_of_iff (strLt a.event_date b.event_date = true ∨
    (a.event_date = b.event_date ∧ b.created_at ≤ a.created_at)) Iff.rfl

instance : DecidableRel dateOrder := fun a b =>
  decidable_of_iff (strLe a.event_date b.event_date = true) Iff.rfl

/-- `get_events` (app.py lines 194-213): every event, sorted by date ascending
then creation time descending, each joined with its images. Read routes carry
the session flag but never consult it. -/
def get_events (db : DB) (_auth : Bool) : Nat × List (Event × List EventImage) :=
  (200, (List.insertionSort eventOrder db.events).map (fun e => (e, imagesFor db e.id)))

/-- `get_event` (app.py lines 285-302). -/
def get_event (db : DB) (_auth : Bool) (event_id : Nat) :
    Nat × Option (Event × List EventImage) :=
  match db.events.find? (fun e => e.id = event_id) with
  | some e => (200, some (e, imagesFor db event_id))
  | none => (404, none)

/-- `get_events_by_category` (app.py lines 460-482): reject categories outside
the enumerated set with 400; otherwise filter and sort by date only. -/
def get_events_by_category (db : DB) (_auth : Bool) (category : String) :
    Nat × Option (List (Event × List EventImage)) :=
  if !(validCategories.contains category) then (400, none)
  else (200, some ((List.insertionSort dateOrder
    (db.events.filter (fun e => e.category = category))).map
      (fun e => (e, imagesFor db e.id))))

/-- One slider entry (app.py lines 243-255). -/
structure Slide where
  image_id : Nat
  image : String
  event_id : Nat
  title : String
  description : String
  date : String
  time : String
  location : String
  category : String
  author : String
  author_initials : String
deriving DecidableEq

/-- The `/uploads/{filename}` access path of a stored file (line 245). -/
def fileUrl (n : StoredName) : String := "/uploads/" ++ Nat.repr n.tok ++ "." ++ n.ext

/-- `FROM event_images ei JOIN events e ON ei.event_id = e.id` (lines 236-237):
each image row paired with its owning event; an image whose owner is missing
produces no row. Event ids are unique in every reachable state. -/
def joinRows (db : DB) : List (EventImage × Event) :=
  db.images.filterMap (fun i => (db.events.find? (fun e => e.id = i.event_id)).map
    (fun e => (i, e)))

/-- `ORDER BY e.event_date ASC, ei.uploaded_at DESC` (line 238). -/
def slideOrder (a b : EventImage × Event) : Prop :=
  strLt a.2.event_date b.2.event_date = true ∨
    (a.2.event_date = b.2.event_date ∧ b.1.uploaded_at ≤ a.1.uploaded_at)

instance : DecidableRel slideOrder := fun a b =>
  decidable_of_iff (strLt a.2.event_date b.2.event_date = true ∨
    (a.2.event_date = b.2.event_date ∧ b.1.uploaded_at ≤ a.1.uploaded_at)) Iff.rfl

/-- The joined rows in response order. -/
def sliderRows (db : DB) : List (EventImage × Event) :=
  List.insertionSort slideOrder (joinRows db)

/-- The JSON object built for one joined row (lines 243-255). -/
def toSlide (p : EventImage × Event) : Slide :=
  { image_id := p.1.id, image := fileUrl p.1.filename, event_id := p.2.id,
    title := p.2.title, description := p.2.description, date := p.2.event_date,
    time := p.2.event_time, location := p.2.location, category := p.2.category,
    author := p.2.author, author_initials := p.2.author_initials }

/-- `get_slider_images` (app.py lines 216-258). -/
def get_slider_images (db : DB) (_auth : Bool) : Nat × List Slide :=
  (200, (sliderRows db).map toSlide)

/-- `get_stats` (app.py lines 261-282); `today` is the value of
`date("now")` at query time. -/
def get_stats (db : DB) (_auth : Bool) (today : String) : Nat × (Nat × Nat × Nat) :=
  (200, (db.events.length,
    (db.events.filter (fun e => strLe today e.event_date)).length,
    db.images.length))

/-- The five sample events inserted by `init_db` (app.py lines 81-101) into an
empty store; `created_at` is the shared insert timestamp. -/
def sampleEvents : List Event :=
  [⟨1, "Spring Devotional",
    "Join us for an inspiring devotional with guest speaker Elder Johnson. Light refreshments will be served after the event.",
    "2026-02-15", "10:00 AM", "Main Auditorium", "spiritual", "Campus Ministry", "CM", 0⟩,
   ⟨2, "Career Fair 2026",
    "Connect with top employers from various industries. Bring your resume and dress professionally. Over 50 companies attending!",
    "2026-02-20", "9:00 AM - 4:00 PM", "Student Center", "career", "Career Services", "CS", 0⟩,
   ⟨3, "Study Group Meetup",
    "Weekly study group for PathwayConnect students. All subjects welcome. Tutors available for math and writing assistance.",
    "2026-01-25", "6:00 PM", "Library Room 204", "academic", "Academic Support", "AS", 0⟩,
   ⟨4, "Winter Social Night",
    "Fun evening of games, music, and fellowship. Hot chocolate bar and snacks provided. Bring a friend!",
    "2026-02-01", "7:00 PM", "Recreation Hall", "social", "Student Council", "SC", 0⟩,
   ⟨5, "Registration Deadline Reminder",
    "Last day to register for Spring semester courses without late fees. Check your student portal for available classes.",
    "2026-01-20", "11:59 PM", "Online", "academic", "Registrar Office", "RO", 0⟩]

/-- The store right after `init_db` on a fresh database file. -/
def initDB : DB :=
  { events := sampleEvents, images := [], files := [],
    nextEventId := 6, nextImageId := 1, nextTok := 0, now := 0 }

/-- The states reachable from the initialised store through the API: the four
mutating handlers called with an authenticated session (an unauthenticated or
failing call returns the state unchanged), plus clock advance between
requests. -/
inductive Reachable : DB → Prop where
  | init : Reachable initDB
  | create (db : DB) (inp : CreateInput) (h : Reachable db) :
      Reachable (create_event db true inp).2.2
  | update (db : DB) (eid : Nat) (data : FormData) (files : List UploadFile)
      (h : Reachable db) : Reachable (update_event db true eid data files).2
  | delete (db : DB) (eid : Nat) (h : Reachable db) :
      Reachable (delete_event db true eid).2
  | delImg (db : DB) (eid iid : Nat) (h : Reachable db) :
      Reachable (delete_image db true eid iid).2
  | tick (db : DB) (t : Nat) (h : Reachable db) : Reachable { db with now := t }

/-- The stored-name invariant behind uuid4 generation: every token already
used is below the supply counter, and no two image rows share a name. -/
def NamesOk (db : DB) : Prop :=
  (∀ i ∈ db.images, i.filename.tok < db.nextTok) ∧
  db.images.Pairwise (fun a b => a.filename ≠ b.filename)

/-- A store with two events sharing category and event_date, the second one
created later (clock 1 versus 0). -/
def dbSameDate : DB :=
  { events := [⟨1, "a", "", "2026-01-01", "", "", "social", "", "", 0⟩,
               ⟨2, "b", "", "2026-01-01", "", "", "social", "", "", 1⟩],
    images := [], files := [], nextEventId := 3, nextImageId := 1,
    nextTok := 0, now := 2 }

/-- What the category filter endpoint returns for a valid category value:
status 200, exactly the events of that category each joined with its images,
ordered by event_date ascending only; the full listing, by contrast, is
ordered by event_date ascending and then created_at descending. -/
def C2Spec (db : DB) (a : Bool) (c : String) : Prop :=
  (get_events_by_category db a c).1 = 200 ∧
  (((get_events_by_category db a c).2.getD []).map Prod.fst).Perm
    (db.events.filter (fun e => e.category = c)) ∧
  List.Sorted dateOrder (((get_events_by_category db a c).2.getD []).map Prod.fst) ∧
  (∀ p ∈ (get_events_by_category db a c).2.getD [], p.2 = imagesFor db p.1.id) ∧
  ((get_events db a).2.map Prod.fst).Perm db.events ∧
  List.Sorted eventOrder ((get_events db a).2.map Prod.fst) ∧
  (∀ p ∈ (get_events db a).2, p.2 = imagesFor db p.1.id)

/-- A store with one event owning two attachments (both files on disk), plus
an unrelated event owning a third attachment. -/
def dbCascade : DB :=
  { events := [⟨1, "t", "", "2026-01-01", "", "", "general", "", "", 0⟩,
               ⟨2, "u", "", "2026-01-02", "", "", "general", "", "", 0⟩],
    images := [⟨1, 1, ⟨0, "png"⟩, "a.png", 0⟩, ⟨2, 1, ⟨1, "jpg"⟩, "b.jpg", 0⟩,
               ⟨3, 2, ⟨2, "png"⟩, "c.png", 0⟩],
    files := [⟨0, "png"⟩, ⟨1, "jpg"⟩, ⟨2, "png"⟩],
    nextEventId := 3, nextImageId := 4, nextTok := 3, now := 1 }

/-- A store with a single fully-populated event and no attachments. -/
def dbOne : DB :=
  { events := [⟨1, "t", "d", "2026-01-01", "10:00", "loc", "general", "au", "ai", 0⟩],
    images := [], files := [], nextEventId := 2, nextImageId := 1,
    nextTok := 0, now := 1 }

/-- What a files-free update of an existing record does when the submitted
category, if any, is valid: status 200; attachments and files untouched; no
record added or removed; records with other ids untouched; and the targeted
record has every submitted field overwritten and every absent field (as well
as id and created_at) left at its prior value. -/
def C4Spec (db : DB) (eid : Nat) (data : FormData) : Prop :=
  (update_event db true eid data []).1 = 200 ∧
  (update_event db true eid data []).2.images = db.images ∧
  (update_event db true eid data []).2.files = db.files ∧
  (update_event db true eid data []).2.events.length = db.events.length ∧
  (∀ e ∈ db.events, ¬(e.id = eid) → e ∈ (update_event db true eid data []).2.events) ∧
  (∀ e ∈ db.events, e.id = eid →
    ∃ e2 ∈ (update_event db true eid data []).2.events,
      e2.id = e.id ∧ e2.created_at = e.created_at ∧
      (lookupField data "title" = none → e2.title = e.title) ∧
      (∀ v, lookupField data "title" = some v → e2.title = v) ∧
      (lookupField data "description" = none → e2.description = e.description) ∧
      (∀ v, lookupField data "description" = some v → e2.description = v) ∧
      (lookupField data "event_date" = none → e2.event_date = e.event_date) ∧
      (∀ v, lookupField data "event_date" = some v → e2.event_date = v) ∧
      (lookupField data "event_time" = none → e2.event_time = e.event_time) ∧
      (∀ v, lookupField data "event_time" = some v → e2.event_time = v) ∧
      (lookupField data "location" = none → e2.location = e.location) ∧
      (∀ v, lookupField data "location" = some v → e2.location = v) ∧
      (lookupField data "category" = none → e2.category = e.category) ∧
      (∀ v, lookupField data "category" = some v → e2.category = v) ∧
      (lookupField data "author" = none → e2.author = e.author) ∧
      (∀ v, lookupField data "author" = some v → e2.author = v) ∧
      (lookupField data "author_initials" = none → e2.author_initials = e.author_initials) ∧
      (∀ v, lookupField data "author_initials" = some v → e2.author_initials = v))

/-- A store where event 1 owns three attachments uploaded at times 0, 1, 2
and event 2 owns none. -/
def dbSlides : DB :=
  { events := [⟨1, "t1", "", "2026-01-02", "", "", "general", "", "", 0⟩,
               ⟨2, "t2", "", "2026-01-01", "", "", "general", "", "", 0⟩],
    images := [⟨1, 1, ⟨0, "png"⟩, "a", 0⟩, ⟨2, 1, ⟨1, "png"⟩, "b", 1⟩,
               ⟨3, 1, ⟨2, "png"⟩, "c", 2⟩],
    files := [⟨0, "png"⟩, ⟨1, "png"⟩, ⟨2, "png"⟩],
    nextEventId := 3, nextImageId := 4, nextTok := 3, now := 3 }

/-- A store whose event 1 owns two attachment rows, but the backing file of
the first one is already missing from the uploads directory. -/
def dbMissing : DB :=
  { events := [⟨1, "t", "", "2026-01-01", "", "", "general", "", "", 0⟩],
    images := [⟨1, 1, ⟨0, "png"⟩, "a.png", 0⟩, ⟨2, 1, ⟨1, "jpg"⟩, "b.jpg", 0⟩],
    files := [⟨1, "jpg"⟩],
    nextEventId := 2, nextImageId := 3, nextTok := 2, now := 1 }

theorem charsLt_irrefl (x : List Char) : charsLt x x = false := by
  induction x with
  | nil => rfl
  | cons a as ih =>
      simp only [charsLt]
      rw [if_neg (Nat.lt_irrefl _), if_neg (Nat.lt_irrefl _)]
      exact ih

theorem charsLt_trans :
    ∀ (x y z : List Char), charsLt x y = true → charsLt y z = true →
      charsLt x z = true
  | _, [], _, h1, _ => by simp [charsLt] at h1
  | _, _ :: _, [], _, h2 => by simp [charsLt] at h2
  | [], _ :: _, _ :: _, _, _ => rfl
  | a :: as, b :: bs, c :: cs, h1, h2 => by
      simp only [charsLt] at h1 h2 ⊢
      by_cases hab : a.toNat < b.toNat
      · by_cases hbc : b.toNat < c.toNat
        · rw [if_pos (Nat.lt_trans hab hbc)]
        · by_cases hcb : c.toNat < b.toNat
          · rw [if_neg hbc, if_pos hcb] at h2
            exact absurd h2 (by simp)
          · have hbceq : b.toNat = c.toNat :=
              Nat.le_antisymm (Nat.le_of_not_lt hcb) (Nat.le_of_not_lt hbc)
            rw [if_pos (hbceq ▸ hab)]
      · by_cases hba : b.toNat < a.toNat
        · rw [if_neg hab, if_pos hba] at h1
          exact absurd h1 (by simp)
        · have habeq : a.toNat = b.toNat :=
            Nat.le_antisymm (Nat.le_of_not_lt hba) (Nat.le_of_not_lt hab)
          rw [if_neg hab, if_neg hba] at h1
          by_cases hbc : b.toNat < c.toNat
          · rw [if_pos (habeq ▸ hbc)]
          · by_cases hcb : c.toNat < b.toNat
            · rw [if_neg hbc, if_pos hcb] at h2
              exact absurd h2 (by simp)
            · have hbceq : b.toNat = c.toNat :=
                Nat.le_antisymm (Nat.le_of_not_lt hcb) (Nat.le_of_not_lt hbc)
              rw [if_neg hbc, if_neg hcb] at h2
              rw [if_neg (habeq ▸ hbc), if_neg (fun h => hcb (habeq ▸ h))]
              exact charsLt_trans as bs cs h1 h2

theorem charsLt_eq_of_not :
    ∀ (x y : List Char), charsLt x y = false → charsLt y x = false → x = y
  | [], [], _, _ => rfl
  | [], _ :: _, h1, _ => by simp [charsLt] at h1
  | _ :: _, [], _, h2 => by simp [charsLt] at h2
  | a :: as, b :: bs, h1, h2 => by
      simp only [charsLt] at h1 h2
      by_cases hab : a.toNat < b.toNat
      · rw [if_pos hab] at h1
        exact absurd h1 (by simp)
      · by_cases hba : b.toNat < a.toNat
        · rw [if_pos hba] at h2
          exact absurd h2 (by simp)
        · have habeq : a = b :=
            Char.ext (UInt32.ext
              (Nat.le_antisymm (Nat.le_of_not_lt hba) (Nat.le_of_not_lt hab)))
          rw [if_neg hab, if_neg hba] at h1
          rw [if_neg hba, if_neg hab] at h2
          rw [habeq, charsLt_eq_of_not as bs h1 h2]

theorem strLt_trans {s t u : String} (h1 : strLt s t = true)
    (h2 : strLt t u = true) : strLt s u = true :=
  charsLt_trans s.data t.data u.data h1 h2

theorem strLt_asymm {s t : String} (h : strLt s t = true) : strLt t s = false := by
  by_contra hne
  have h2 : strLt t s = true := by
    cases hts : strLt t s
    · exact absurd hts hne
    · rfl
  have := strLt_trans h h2
  rw [strLt, charsLt_irrefl] at this
  exact absurd this (by simp)

theorem strEq_of_not_lt {s t : String} (h1 : strLt s t = false)
    (h2 : strLt t s = false) : s = t := by
  have h : s.data = t.data := charsLt_eq_of_not s.data t.data h1 h2
  cases s
  cases t
  exact congrArg String.mk h

instance : IsTotal Event dateOrder := by
  constructor
  intro a b
  unfold dateOrder strLe
  by_cases h : strLt b.event_date a.event_date = true
  · right
    rw [strLt_asymm h]
    rfl
  · left
    rw [Bool.not_eq_true] at h
    rw [h]
    rfl

instance : IsTrans Event dateOrder := by
  constructor
  intro a b c hab hbc
  unfold dateOrder strLe at hab hbc ⊢
  rw [Bool.not_eq_true'] at hab hbc ⊢
  by_contra hca
  rw [Bool.not_eq_false] at hca
  by_cases h : strLt b.event_date c.event_date = true
  · exact absurd (strLt_trans h hca) (by simp [hab])
  · rw [Bool.not_eq_true] at h
    rw [strEq_of_not_lt hbc h] at hca
    exact absurd hca (by simp [hab])

instance : IsTotal Event eventOrder := by
  constructor
  intro a b
  unfold eventOrder
  by_cases hab : strLt a.event_date b.event_date = true
  · exact Or.inl (Or.inl hab)
  · by_cases hba : strLt b.event_date a.event_date = true
    · exact Or.inr (Or.inl hba)
    · rw [Bool.not_eq_true] at hab hba
      have heq := strEq_of_not_lt hab hba
      rcases Nat.le_total b.created_at a.created_at with h2 | h2
      · exact Or.inl (Or.inr ⟨heq, h2⟩)
      · exact Or.inr (Or.inr ⟨heq.symm, h2⟩)

instance : IsTrans Event eventOrder := by
  constructor
  intro a b c hab hbc
  unfold eventOrder at hab hbc ⊢
  rcases hab with h1 | ⟨h1, h1'⟩ <;> rcases hbc with h2 | ⟨h2, h2'⟩
  · exact Or.inl (strLt_trans h1 h2)
  · exact Or.inl (h2 ▸ h1)
  · exact Or.inl (h1 ▸ h2)
  · exact Or.inr ⟨h1.trans h2, Nat.le_trans h2' h1'⟩

instance : IsTotal (EventImage × Event) slideOrder := by
  constructor
  intro a b
  unfold slideOrder
  by_cases hab : strLt a.2.event_date b.2.event_date = true
  · exact Or.inl (Or.inl hab)
  · by_cases hba : strLt b.2.event_date a.2.event_date = true
    · exact Or.inr (Or.inl hba)
    · rw [Bool.not_eq_true] at hab hba
      have heq := strEq_of_not_lt hab hba
      rcases Nat.le_total b.1.uploaded_at a.1.uploaded_at with h2 | h2
      · exact Or.inl (Or.inr ⟨heq, h2⟩)
      · exact Or.inr (Or.inr ⟨heq.symm, h2⟩)

instance : IsTrans (EventImage × Event) slideOrder := by
  constructor
  intro a b c hab hbc
  unfold slideOrder at hab hbc ⊢
  rcases hab with h1 | ⟨h1, h1'⟩ <;> rcases hbc with h2 | ⟨h2, h2'⟩
  · exact Or.inl (strLt_trans h1 h2)
  · exact Or.inl (h2 ▸ h1)
  · exact Or.inl (h1 ▸ h2)
  · exact Or.inr ⟨h1.trans h2, Nat.le_trans h2' h1'⟩

theorem processFile_events (eid : Nat) (db : DB) (f : UploadFile) :
    (processFile eid db f).events = db.events := by
  unfold processFile
  split <;> rfl

theorem processFiles_events (eid : Nat) (fs : List UploadFile) (db : DB) :
    (processFiles eid db fs).events = db.events := by
  induction fs generalizing db with
  | nil => rfl
  | cons f fs ih =>
      show (processFiles eid (processFile eid db f) fs).events = db.events
      rw [ih, processFile_events]

theorem processFile_nextEventId (eid : Nat) (db : DB) (f : UploadFile) :
    (processFile eid db f).nextEventId = db.nextEventId := by
  unfold processFile
  split <;> rfl

theorem create_event_spec (db : DB) (inp : CreateInput) :
    (create_event db true inp).1 = 201 ∧
    (create_event db true inp).2.1 = db.nextEventId ∧
    (create_event db true inp).2.2.events = db.events ++
      [{ id := db.nextEventId, title := inp.title, description := inp.description,
         event_date := inp.event_date, event_time := inp.event_time,
         location := inp.location,
         category := if validCategories.contains inp.category then inp.category
           else "general",
         author := inp.author, author_initials := inp.author_initials,
         created_at := db.now }] := by
  refine ⟨rfl, rfl, ?_⟩
  show (processFiles db.nextEventId _ inp.files).events = _
  rw [processFiles_events]

/-- C1, counterexample: with the invalid category value clubs, the create
endpoint does not fail with 400 — it returns 201 and persists a new record
(with category coerced to general), so the claim is false for the create
half. -/
theorem C1_counterexample :
    (create_event initDB true { category := "clubs" }).1 = 201 ∧
    (create_event initDB true { category := "clubs" }).1 ≠ 400 ∧
    (create_event initDB true { category := "clubs" }).2.2.events =
      initDB.events ++ [⟨6, "", "", "", "", "", "general", "", "", 0⟩] := by
  refine ⟨rfl, by decide, rfl⟩

/-- C1, amended: for every category value outside the enumerated set, the
filter endpoint fails with 400 (a read, so nothing is persisted), while the
create endpoint does not fail: it returns 201 and persists exactly one new
record whose category has been coerced to general. -/
theorem C1_invalid_category (db : DB) (a : Bool) (c : String) (inp : CreateInput)
    (hc : validCategories.contains c = false) :
    get_events_by_category db a c = (400, none) ∧
    (inp.category = c →
      (create_event db true inp).1 = 201 ∧
      ∃ e, (create_event db true inp).2.2.events = db.events ++ [e] ∧
        e.category = "general") := by
  constructor
  · unfold get_events_by_category
    rw [hc]
    rfl
  · intro hic
    have hcc : validCategories.contains inp.category = false := by rw [hic]; exact hc
    refine ⟨(create_event_spec db inp).1, ?_⟩
    refine ⟨_, (create_event_spec db inp).2.2, ?_⟩
    show (if validCategories.contains inp.category then inp.category else "general") =
      "general"
    rw [hcc]
    rfl

/-- C1, witness: the amended theorem applied at the initial store and the
concrete invalid category value clubs. -/
theorem C1_witness :
    validCategories.contains "clubs" = false ∧
    get_events_by_category initDB true "clubs" = (400, none) ∧
    (create_event initDB true { category := "clubs" }).2.2.events.length = 6 := by
  refine ⟨by decide, (C1_invalid_category initDB true "clubs" {} (by decide)).1, ?_⟩
  obtain ⟨e, he, -⟩ :=
    ((C1_invalid_category initDB true "clubs" { category := "clubs" } (by decide)).2 rfl).2
  rw [he]
  rfl

/-- C2, counterexample: on a store with two same-category events sharing an
event_date, the full listing orders the newer record first (created_at
descending tie-break) but the category-filtered listing returns them in table
order — the filtered ordering is not the same as the full listing ordering. -/
theorem C2_counterexample :
    ((get_events dbSameDate true).2.map (fun p => p.1.id) = [2, 1]) ∧
    (((get_events_by_category dbSameDate true "social").2.getD []).map
      (fun p => p.1.id) = [1, 2]) := by
  constructor <;> decide

/-- C2, amended: for every store state and valid category value the filtered
listing returns exactly the records of that category, each joined with its
images, ordered by event_date ascending only — ties are left in table order;
the created_at-descending secondary key applies to the full listing but not to
the filtered one. -/
theorem C2_filter_listing (db : DB) (a : Bool) (c : String)
    (hc : validCategories.contains c = true) : C2Spec db a c := by
  have hmap : ∀ (l : List Event),
      (l.map (fun e => (e, imagesFor db e.id))).map Prod.fst = l := by
    intro l
    rw [List.map_map]
    exact List.map_id l
  have hres : get_events_by_category db a c =
      (200, some ((List.insertionSort dateOrder
        (db.events.filter (fun e => e.category = c))).map
          (fun e => (e, imagesFor db e.id)))) := by
    unfold get_events_by_category
    rw [hc]
    rfl
  refine ⟨by rw [hres], ?_, ?_, ?_, ?_, ?_, ?_⟩
  · rw [hres]
    show (((List.insertionSort dateOrder
      (db.events.filter (fun e => e.category = c))).map
        (fun e => (e, imagesFor db e.id))).map Prod.fst).Perm _
    rw [hmap]
    exact List.perm_insertionSort _ _
  · rw [hres]
    show List.Sorted dateOrder (((List.insertionSort dateOrder
      (db.events.filter (fun e => e.category = c))).map
        (fun e => (e, imagesFor db e.id))).map Prod.fst)
    rw [hmap]
    exact List.sorted_insertionSort dateOrder _
  · intro p hp
    rw [hres] at hp
    simp only [Option.getD_some, List.mem_map] at hp
    obtain ⟨e, -, rfl⟩ := hp
    rfl
  · show (((List.insertionSort eventOrder db.events).map
      (fun e => (e, imagesFor db e.id))).map Prod.fst).Perm db.events
    rw [hmap]
    exact List.perm_insertionSort _ _
  · show List.Sorted eventOrder (((List.insertionSort eventOrder db.events).map
      (fun e => (e, imagesFor db e.id))).map Prod.fst)
    rw [hmap]
    exact List.sorted_insertionSort eventOrder _
  · intro p hp
    simp only [get_events, List.mem_map] at hp
    obtain ⟨e, -, rfl⟩ := hp
    rfl

/-- C2, witness: the amended theorem applied at the concrete two-event store
and the valid category social. -/
theorem C2_witness :
    validCategories.contains "social" = true ∧ C2Spec dbSameDate true "social" :=
  ⟨by decide, C2_filter_listing dbSameDate true "social" (by decide)⟩

/-- C3: deleting an existing record returns 200, removes every attachment row
owned by it (and nothing else) from the store, removes every backing file of
those attachments from the storage directory, and a subsequent lookup of any
of those attachment ids under that record returns 404; the cascade is part of
the delete handler itself. -/
theorem C3_delete_cascade (db : DB) (eid : Nat)
    (hev : db.events.any (fun e => e.id = eid) = true) :
    (delete_event db true eid).1 = 200 ∧
    (∀ j, j ∈ (delete_event db true eid).2.images ↔
      j ∈ db.images ∧ ¬(j.event_id = eid)) ∧
    (∀ i ∈ db.images, i.event_id = eid →
      i.filename ∉ (delete_event db true eid).2.files ∧
      delete_image (delete_event db true eid).2 true eid i.id =
        (404, (delete_event db true eid).2)) := by
  have hres : delete_event db true eid =
      (200, { db with
        files := db.files.filter (fun f =>
          !(((db.images.filter (fun i => i.event_id = eid)).map
            (fun i => i.filename)).contains f)),
        images := db.images.filter (fun i => !(i.event_id = eid)),
        events := db.events.filter (fun e => !(e.id = eid)) }) := by
    unfold delete_event
    rw [hev]
    rfl
  rw [hres]
  refine ⟨rfl, ?_, ?_⟩
  · intro j
    simp [List.mem_filter]
  · intro i hi hie
    constructor
    · intro hmem
      rw [List.mem_filter] at hmem
      have hc : (((db.images.filter (fun i2 => i2.event_id = eid)).map
          (fun i2 => i2.filename)).contains i.filename) = true := by
        rw [List.elem_iff]
        exact List.mem_map_of_mem _ (List.mem_filter.mpr ⟨hi, by simp [hie]⟩)
      rw [hc] at hmem
      simp at hmem
    · have hnone : (List.find? (fun r => r.id = i.id && r.event_id = eid)
          (db.images.filter (fun i2 => !(i2.event_id = eid)))) = none := by
        rw [List.find?_eq_none]
        intro x hx
        rw [List.mem_filter] at hx
        simp only [Bool.not_eq_true', decide_eq_false_iff_not] at hx
        simp [hx.2]
      unfold delete_image
      rw [hnone]
      rfl

/-- C3, witness: on the concrete two-event store, deleting event 1 removes its
two attachments and their files, and looking image 1 up afterwards gives 404. -/
theorem C3_witness :
    dbCascade.events.any (fun e => e.id = 1) = true ∧
    (delete_event dbCascade true 1).1 = 200 ∧
    (⟨0, "png"⟩ : StoredName) ∉ (delete_event dbCascade true 1).2.files ∧
    delete_image (delete_event dbCascade true 1).2 true 1 1 =
      (404, (delete_event dbCascade true 1).2) := by
  have h := C3_delete_cascade dbCascade 1 (by decide)
  exact ⟨by decide, h.1, (h.2.2 ⟨1, 1, ⟨0, "png"⟩, "a.png", 0⟩ (by decide) rfl).1,
    (h.2.2 ⟨1, 1, ⟨0, "png"⟩, "a.png", 0⟩ (by decide) rfl).2⟩

/-- C4, counterexample: an update input that sets category to a value outside
the enumerated set does not overwrite the field — it violates the events
table CHECK constraint, so the request fails (500) and every record is left
unchanged, contradicting the claim for that input. -/
theorem C4_counterexample :
    update_event dbOne true 1 [("category", "nope")] [] = (500, dbOne) ∧
    (update_event dbOne true 1 [("category", "nope")] []).2.events = dbOne.events := by
  constructor <;> rfl

/-- C4, amended: for every update input whose category value, when present,
lies in the enumerated set, updating an existing record overwrites exactly the
submitted fields and leaves absent fields and all other records and
attachments at their prior values; updating a nonexistent id fails with 404
and changes nothing. An input carrying an invalid category instead fails
against the table CHECK constraint with no change. -/
theorem C4_update_frame (db : DB) (eid : Nat) (data : FormData)
    (hcat : categoryCheckViolated data = false) :
    (db.events.any (fun e => e.id = eid) = false →
      update_event db true eid data [] = (404, db)) ∧
    (db.events.any (fun e => e.id = eid) = true → C4Spec db eid data) := by
  constructor
  · intro h
    unfold update_event
    rw [h]
    rfl
  · intro hev
    have hres : update_event db true eid data [] =
        (200, { db with events := (db.events.map (fun e => if e.id = eid then applyUpdates e data else e)) }) := by
      unfold update_event
      rw [hev, hcat]
      rfl
    unfold C4Spec
    rw [hres]
    refine ⟨rfl, rfl, rfl, by simp, ?_, ?_⟩
    · intro e he hne
      exact List.mem_map.mpr ⟨e, he, if_neg hne⟩
    · intro e he hid
      refine ⟨applyUpdates e data, List.mem_map.mpr ⟨e, he, if_pos hid⟩,
        rfl, rfl, ?_, ?_, ?_, ?_, ?_, ?_, ?_, ?_,
        ?_, ?_, ?_, ?_, ?_, ?_, ?_, ?_⟩ <;>
        first
        | (intro h; simp [applyUpdates, h])
        | (intro v h; simp [applyUpdates, h])

/-- C4, witness: the amended theorem applied at the one-event store with the
input that only sets title to X: the update succeeds and only title changes. -/
theorem C4_witness :
    categoryCheckViolated [("title", "X")] = false ∧
    dbOne.events.any (fun e => e.id = 1) = true ∧
    (update_event dbOne true 1 [("title", "X")] []).1 = 200 ∧
    (update_event dbOne true 1 [("title", "X")] []).2.events =
      [⟨1, "X", "d", "2026-01-01", "10:00", "loc", "general", "au", "ai", 0⟩] := by
  have h := (C4_update_frame dbOne 1 [("title", "X")] (by decide)).2 (by decide)
  exact ⟨by decide, by decide, h.1, by decide⟩

/-- C10: an update of an existing record that submits no recognized field and
no files succeeds with 200 and leaves the whole store — the targeted record,
every other record, all attachments and all files — unchanged. -/
theorem C10_noop_update (db : DB) (eid : Nat) (data : FormData)
    (hev : db.events.any (fun e => e.id = eid) = true)
    (hnone : ∀ k ∈ updateFields, lookupField data k = none) :
    update_event db true eid data [] = (200, db) := by
  have hcat : categoryCheckViolated data = false := by
    unfold categoryCheckViolated
    rw [hnone "category" (by decide)]
  have hres : update_event db true eid data [] =
      (200, { db with events := (db.events.map (fun e => if e.id = eid then applyUpdates e data else e)) }) := by
    unfold update_event
    rw [hev, hcat]
    rfl
  have happ : ∀ e ∈ db.events,
      (if e.id = eid then applyUpdates e data else e) = id e := by
    intro e _
    by_cases h : e.id = eid
    · rw [if_pos h]
      show applyUpdates e data = e
      unfold applyUpdates
      rw [hnone "title" (by decide), hnone "description" (by decide),
        hnone "event_date" (by decide), hnone "event_time" (by decide),
        hnone "location" (by decide), hnone "category" (by decide),
        hnone "author" (by decide), hnone "author_initials" (by decide)]
      rfl
    · rw [if_neg h]
      rfl
  rw [hres, List.map_congr_left happ, List.map_id]

/-- C10, witness: updating event 1 of the one-event store with a body holding
only an unrecognized key succeeds and changes nothing. -/
theorem C10_witness :
    dbOne.events.any (fun e => e.id = 1) = true ∧
    (∀ k ∈ updateFields, lookupField [("bogus", "x")] k = none) ∧
    update_event dbOne true 1 [("bogus", "x")] [] = (200, dbOne) :=
  ⟨by decide, by decide, C10_noop_update dbOne 1 [("bogus", "x")] (by decide) (by decide)⟩

/-- C5: every mutating handler called without an authenticated session
returns 401 and leaves the store untouched; every read handler ignores the
session entirely (and the list, slider and stats reads always return 200);
and the same mutating calls succeed once authenticated — create
unconditionally with 201, update and delete with 200 whenever the target
exists (and, for update, the submitted category is not invalid). -/
theorem C5_auth_gate :
    (∀ db inp, create_event db false inp = (401, 0, db)) ∧
    (∀ db eid data files, update_event db false eid data files = (401, db)) ∧
    (∀ db eid, delete_event db false eid = (401, db)) ∧
    (∀ db eid iid, delete_image db false eid iid = (401, db)) ∧
    (∀ db a b, get_events db a = get_events db b) ∧
    (∀ db a, (get_events db a).1 = 200) ∧
    (∀ db a b eid, get_event db a eid = get_event db b eid) ∧
    (∀ db a b c, get_events_by_category db a c = get_events_by_category db b c) ∧
    (∀ db a b, get_slider_images db a = get_slider_images db b) ∧
    (∀ db a, (get_slider_images db a).1 = 200) ∧
    (∀ db a b t, get_stats db a t = get_stats db b t) ∧
    (∀ db a t, (get_stats db a t).1 = 200) ∧
    (∀ db inp, (create_event db true inp).1 = 201) ∧
    (∀ db eid data files, db.events.any (fun e => e.id = eid) = true →
      categoryCheckViolated data = false →
      (update_event db true eid data files).1 = 200) ∧
    (∀ db eid, db.events.any (fun e => e.id = eid) = true →
      (delete_event db true eid).1 = 200) ∧
    (∀ db eid iid,
      (db.images.find? (fun i => i.id = iid && i.event_id = eid)).isSome = true →
      (delete_image db true eid iid).1 = 200) := by
  refine ⟨fun _ _ => rfl, fun _ _ _ _ => rfl, fun _ _ => rfl, fun _ _ _ => rfl,
    fun _ _ _ => rfl, fun _ _ => rfl, fun _ _ _ _ => rfl, fun _ _ _ _ => rfl,
    fun _ _ _ => rfl, fun _ _ => rfl, fun _ _ _ _ => rfl, fun _ _ _ => rfl,
    fun _ _ => rfl, ?_, ?_, ?_⟩
  · intro db eid data files hev hcat
    unfold update_event
    rw [hev, hcat]
    rfl
  · intro db eid hev
    unfold delete_event
    rw [hev]
    rfl
  · intro db eid iid h
    obtain ⟨row, hrow⟩ := Option.isSome_iff_exists.mp h
    unfold delete_image
    rw [hrow]
    rfl

/-- C5, witness: on the one-event store, unauthenticated create and delete
calls return 401 without mutating, while the same calls succeed (201 and 200)
with an authenticated session. -/
theorem C5_witness :
    create_event dbOne false {} = (401, 0, dbOne) ∧
    delete_event dbOne false 1 = (401, dbOne) ∧
    (create_event dbOne true {}).1 = 201 ∧
    (update_event dbOne true 1 [("title", "Y")] []).1 = 200 ∧
    (delete_event dbOne true 1).1 = 200 := by
  obtain ⟨h1, h2, h3, h4, h5, h6, h7, h8, h9, h10, h11, h12, h13, h14, h15, h16⟩ :=
    C5_auth_gate
  exact ⟨h1 dbOne {}, h3 dbOne 1, h13 dbOne {},
    h14 dbOne 1 [("title", "Y")] [] (by decide) (by decide),
    h15 dbOne 1 (by decide)⟩

theorem processFile_skip (eid : Nat) (db : DB) (f : UploadFile)
    (h : allowed_file f.filename = false) : processFile eid db f = db := by
  unfold processFile
  split
  · next hcond =>
      exfalso
      rw [Bool.and_eq_true, h] at hcond
      exact absurd hcond.2 (by simp)
  · rfl

theorem processFile_accept (eid : Nat) (db : DB) (f : UploadFile)
    (h : allowed_file f.filename = true) :
    processFile eid db f = { db with
      nextTok := db.nextTok + 1,
      files := db.files ++ [⟨db.nextTok, lowerStr (extOf f.filename)⟩],
      images := db.images ++ [⟨db.nextImageId, eid,
        ⟨db.nextTok, lowerStr (extOf f.filename)⟩,
        secure_filename f.filename, db.now⟩],
      nextImageId := db.nextImageId + 1 } := by
  have hne : f.filename ≠ "" := by
    intro he
    rw [he] at h
    exact absurd h (by decide)
  unfold processFile
  split
  · rfl
  · next hcond =>
      exfalso
      apply hcond
      rw [Bool.and_eq_true]
      exact ⟨by simp [hne], h⟩

theorem processFiles_count (eid : Nat) (fs : List UploadFile) (db : DB) :
    (processFiles eid db fs).images.length =
      db.images.length + fs.countP (fun f => allowed_file f.filename) := by
  induction fs generalizing db with
  | nil => simp [processFiles]
  | cons f fs ih =>
      show (processFiles eid (processFile eid db f) fs).images.length = _
      rw [ih]
      by_cases h : allowed_file f.filename = true
      · rw [processFile_accept eid db f h]
        simp [List.countP_cons, h]
        omega
      · have h2 : allowed_file f.filename = false := by
          cases hx : allowed_file f.filename
          · rfl
          · exact absurd hx h
        rw [processFile_skip eid db f h2]
        simp [List.countP_cons, h2]

theorem processFiles_new_images (eid : Nat) (fs : List UploadFile) :
    ∀ (db : DB), ∀ j ∈ (processFiles eid db fs).images, j ∈ db.images ∨
      ∃ f ∈ fs, allowed_file f.filename = true ∧
        j.filename.ext = lowerStr (extOf f.filename) ∧
        j.original_name = secure_filename f.filename ∧ j.event_id = eid := by
  induction fs with
  | nil => intro db j hj; exact Or.inl hj
  | cons f fs ih =>
      intro db j hj
      rcases ih (processFile eid db f) j hj with hin | ⟨g, hg, hga, hge, hgo, hgi⟩
      · by_cases h : allowed_file f.filename = true
        · rw [processFile_accept eid db f h] at hin
          simp only [List.mem_append, List.mem_singleton] at hin
          rcases hin with hin | rfl
          · exact Or.inl hin
          · exact Or.inr ⟨f, List.mem_cons_self f fs, h, rfl, rfl, rfl⟩
        · have h2 : allowed_file f.filename = false := by
            cases hx : allowed_file f.filename
            · rfl
            · exact absurd hx h
          rw [processFile_skip eid db f h2] at hin
          exact Or.inl hin
      · exact Or.inr ⟨g, List.mem_cons_of_mem f hg, hga, hge, hgo, hgi⟩

/-- C6: a file is accepted exactly when its name has an extension that,
lower-cased, lies in the allow-list; rejected files are skipped silently (the
create request still returns 201, and the number of attachments grows by the
count of accepted files only, each file judged independently); every accepted
file yields an attachment row owned by the new record whose stored name
carries the lower-cased original extension; the same filtering governs the
files of an update request. -/
theorem C6_upload_filtering :
    (∀ name, allowed_file name = true ↔
      (name.data.contains '.' = true ∧ lowerStr (extOf name) ∈ ALLOWED_EXTENSIONS)) ∧
    (∀ db inp, (create_event db true inp).1 = 201 ∧
      (create_event db true inp).2.2.images.length =
        db.images.length + inp.files.countP (fun f => allowed_file f.filename) ∧
      (∀ j ∈ (create_event db true inp).2.2.images, j ∉ db.images →
        ∃ f ∈ inp.files, allowed_file f.filename = true ∧
          j.filename.ext = lowerStr (extOf f.filename) ∧
          j.original_name = secure_filename f.filename ∧
          j.event_id = db.nextEventId)) ∧
    (∀ db eid data files, db.events.any (fun e => e.id = eid) = true →
      categoryCheckViolated data = false →
      (update_event db true eid data files).1 = 200 ∧
      (update_event db true eid data files).2.images.length =
        db.images.length + files.countP (fun f => allowed_file f.filename)) := by
  refine ⟨?_, ?_, ?_⟩
  · intro name
    rw [allowed_file, Bool.and_eq_true, List.elem_iff, List.elem_iff]
  · intro db inp
    refine ⟨rfl, ?_, ?_⟩
    · show (processFiles db.nextEventId _ inp.files).images.length = _
      rw [processFiles_count]
    · intro j hj hnj
      rcases processFiles_new_images db.nextEventId inp.files _ j hj with h | h
      · exact absurd h hnj
      · exact h
  · intro db eid data files hev hcat
    have hres : update_event db true eid data files =
        (200, processFiles eid { db with events := (db.events.map
          (fun e => if e.id = eid then applyUpdates e data else e)) } files) := by
      unfold update_event
      rw [hev, hcat]
      rfl
    refine ⟨by rw [hres], ?_⟩
    rw [hres]
    show (processFiles eid { db with events := (db.events.map
      (fun e => if e.id = eid then applyUpdates e data else e)) } files).images.length = _
    rw [processFiles_count]

/-- C6, witness: of five files submitted in one create call, exactly the two
with allow-listed extensions (upper-case PNG included) become attachments;
the request itself succeeds. -/
theorem C6_witness :
    allowed_file "photo.PNG" = true ∧
    allowed_file "notes.txt" = false ∧
    allowed_file "noext" = false ∧
    (create_event dbOne true { files := [⟨"photo.PNG"⟩, ⟨"notes.txt"⟩, ⟨"noext"⟩,
      ⟨""⟩, ⟨"pic.jfif"⟩] }).1 = 201 ∧
    (create_event dbOne true { files := [⟨"photo.PNG"⟩, ⟨"notes.txt"⟩, ⟨"noext"⟩,
      ⟨""⟩, ⟨"pic.jfif"⟩] }).2.2.images.length = 2 := by
  have h := C6_upload_filtering
  refine ⟨by decide, by decide, by decide,
    (h.2.1 dbOne { files := [⟨"photo.PNG"⟩, ⟨"notes.txt"⟩, ⟨"noext"⟩,
      ⟨""⟩, ⟨"pic.jfif"⟩] }).1, ?_⟩
  rw [(h.2.1 dbOne { files := [⟨"photo.PNG"⟩, ⟨"notes.txt"⟩, ⟨"noext"⟩,
      ⟨""⟩, ⟨"pic.jfif"⟩] }).2.1]
  decide

theorem length_filterMap_of_isSome {α β : Type} (f : α → Option β) :
    ∀ (l : List α), (∀ a ∈ l, (f a).isSome = true) →
      (l.filterMap f).length = l.length := by
  intro l
  induction l with
  | nil => intro _; rfl
  | cons a l ih =>
      intro h
      rw [List.filterMap_cons]
      obtain ⟨b, hb⟩ := Option.isSome_iff_exists.mp (h a (List.mem_cons_self a l))
      rw [hb]
      simp only [List.length_cons]
      rw [ih (fun x hx => h x (List.mem_cons_of_mem a hx))]

theorem join_countP (events : List Event) (e : Event) (he : e ∈ events) :
    ∀ (l : List EventImage),
      (l.filterMap (fun i => (events.find? (fun e2 => e2.id = i.event_id)).map
        (fun e2 => (i, e2)))).countP (fun p => p.2.id = e.id) =
      l.countP (fun i => i.event_id = e.id) := by
  intro l
  induction l with
  | nil => rfl
  | cons i l ih =>
      rw [List.filterMap_cons, List.countP_cons]
      cases hf : events.find? (fun e2 => e2.id = i.event_id) with
      | none =>
          have hne : ¬(i.event_id = e.id) := by
            intro heq
            rw [List.find?_eq_none] at hf
            exact hf e he (by simp [heq])
          simp only [Option.map_none']
          rw [ih]
          simp [hne]
      | some e2 =>
          have he2 : e2.id = i.event_id := by
            have := List.find?_some hf
            simpa using this
          simp only [Option.map_some']
          rw [List.countP_cons, ih]
          simp [he2]

theorem strLe_of_lt {s t : String} (h : strLt s t = true) : strLe s t = true := by
  unfold strLe
  rw [strLt_asymm h]
  rfl

theorem strLe_refl (s : String) : strLe s s = true := by
  unfold strLe
  rw [strLt, charsLt_irrefl]
  rfl

/-- C7: the slide projection succeeds with one entry per attachment whose
owner exists — a record with N attachments contributes exactly N entries and
one with none contributes none; each entry is the owning record joined with
the attachment through `toSlide` (display fields plus the access path of the
file); and the underlying rows are sorted by the owning record's event_date
ascending and then by the attachment's uploaded_at descending, so the emitted
slide dates are ascending. -/
theorem C7_slide_projection (db : DB)
    (hown : ∀ i ∈ db.images,
      (db.events.find? (fun e => e.id = i.event_id)).isSome = true) :
    (get_slider_images db true).1 = 200 ∧
    (get_slider_images db true).2.length = db.images.length ∧
    (∀ e ∈ db.events, ((get_slider_images db true).2.countP
      (fun s => s.event_id = e.id)) =
      db.images.countP (fun i => i.event_id = e.id)) ∧
    (∀ s ∈ (get_slider_images db true).2, ∃ i ∈ db.images, ∃ e ∈ db.events,
      i.event_id = e.id ∧ s = toSlide (i, e)) ∧
    List.Sorted slideOrder (sliderRows db) ∧
    List.Sorted (fun s1 s2 : Slide => strLe s1.date s2.date = true)
      ((get_slider_images db true).2) := by
  have hperm : (sliderRows db).Perm (joinRows db) :=
    List.perm_insertionSort slideOrder (joinRows db)
  have hsorted : List.Sorted slideOrder (sliderRows db) :=
    List.sorted_insertionSort slideOrder (joinRows db)
  refine ⟨rfl, ?_, ?_, ?_, hsorted, ?_⟩
  · show ((sliderRows db).map toSlide).length = db.images.length
    rw [List.length_map, hperm.length_eq]
    refine length_filterMap_of_isSome _ db.images (fun a ha => ?_)
    obtain ⟨b, hb⟩ := Option.isSome_iff_exists.mp (hown a ha)
    rw [hb]
    rfl
  · intro e he
    show ((sliderRows db).map toSlide).countP (fun s => s.event_id = e.id) = _
    rw [List.countP_map, hperm.countP_eq]
    exact join_countP db.events e he db.images
  · intro s hs
    have hs2 : s ∈ (sliderRows db).map toSlide := hs
    rw [List.mem_map] at hs2
    obtain ⟨p, hp, rfl⟩ := hs2
    have hpj : p ∈ joinRows db := hperm.mem_iff.mp hp
    rw [joinRows, List.mem_filterMap] at hpj
    obtain ⟨i, hi, hfi⟩ := hpj
    cases hf : db.events.find? (fun e2 => e2.id = i.event_id) with
    | none => rw [hf] at hfi; exact absurd hfi (by simp)
    | some e2 =>
        rw [hf] at hfi
        simp only [Option.map_some', Option.some_inj] at hfi
        have he2 : e2.id = i.event_id := by
          have := List.find?_some hf
          simpa using this
        exact ⟨i, hi, e2, List.mem_of_find?_eq_some hf, he2.symm, by rw [← hfi]⟩
  · show List.Sorted (fun s1 s2 : Slide => strLe s1.date s2.date = true)
      ((sliderRows db).map toSlide)
    refine List.Pairwise.map toSlide ?_ hsorted
    intro a b hab
    rcases hab with h | ⟨h, -⟩
    · exact strLe_of_lt h
    · show strLe a.2.event_date b.2.event_date = true
      rw [h]
      exact strLe_refl _

/-- C7, witness: on the concrete store, the slide projection has three
entries in total, three owned by event 1 and none owned by event 2. -/
theorem C7_witness :
    (∀ i ∈ dbSlides.images,
      (dbSlides.events.find? (fun e => e.id = i.event_id)).isSome = true) ∧
    (get_slider_images dbSlides true).2.length = 3 ∧
    ((get_slider_images dbSlides true).2.countP (fun s => s.event_id = 1)) = 3 ∧
    ((get_slider_images dbSlides true).2.countP (fun s => s.event_id = 2)) = 0 := by
  have h := C7_slide_projection dbSlides (by decide)
  refine ⟨by decide, ?_, ?_, ?_⟩
  · rw [h.2.1]
    rfl
  · exact (h.2.2.1 ⟨1, "t1", "", "2026-01-02", "", "", "general", "", "", 0⟩
      (by decide)).trans (by decide)
  · exact (h.2.2.1 ⟨2, "t2", "", "2026-01-01", "", "", "general", "", "", 0⟩
      (by decide)).trans (by decide)

/-- C8: deletions tolerate a backing file that is already absent from the
storage directory: deleting a record one of whose attachment files is missing
still returns 200 with all its attachment rows removed, and deleting a single
attachment whose file is missing still returns 200 with its row removed. -/
theorem C8_missing_file_tolerated (db : DB) :
    (∀ eid i, db.events.any (fun e => e.id = eid) = true → i ∈ db.images →
      i.event_id = eid → i.filename ∉ db.files →
      (delete_event db true eid).1 = 200 ∧
      ∀ j ∈ (delete_event db true eid).2.images, ¬(j.event_id = eid)) ∧
    (∀ eid iid row,
      db.images.find? (fun r => r.id = iid && r.event_id = eid) = some row →
      row.filename ∉ db.files →
      (delete_image db true eid iid).1 = 200 ∧
      ∀ j ∈ (delete_image db true eid iid).2.images, ¬(j.id = iid)) := by
  constructor
  · intro eid i hev _ _ _
    have hres : delete_event db true eid =
        (200, { db with
          files := db.files.filter (fun f =>
            !(((db.images.filter (fun i2 => i2.event_id = eid)).map
              (fun i2 => i2.filename)).contains f)),
          images := db.images.filter (fun i2 => !(i2.event_id = eid)),
          events := db.events.filter (fun e => !(e.id = eid)) }) := by
      unfold delete_event
      rw [hev]
      rfl
    rw [hres]
    refine ⟨rfl, ?_⟩
    intro j hj
    have hj2 := (List.mem_filter.mp hj).2
    simpa using hj2
  · intro eid iid row hrow _
    have hres : delete_image db true eid iid =
        (200, { db with
          files := db.files.filter (fun f => !(f = row.filename)),
          images := db.images.filter (fun i => !(i.id = iid)) }) := by
      unfold delete_image
      rw [hrow]
      rfl
    rw [hres]
    refine ⟨rfl, ?_⟩
    intro j hj
    have hj2 := (List.mem_filter.mp hj).2
    simpa using hj2

/-- C8, witness: in the store whose first attachment file is missing, both
the record deletion and the single-attachment deletion succeed. -/
theorem C8_witness :
    dbMissing.events.any (fun e => e.id = 1) = true ∧
    (⟨0, "png"⟩ : StoredName) ∉ dbMissing.files ∧
    (delete_event dbMissing true 1).1 = 200 ∧
    dbMissing.images.find? (fun r => r.id = 1 && r.event_id = 1) =
      some ⟨1, 1, ⟨0, "png"⟩, "a.png", 0⟩ ∧
    (delete_image dbMissing true 1 1).1 = 200 := by
  have h := C8_missing_file_tolerated dbMissing
  refine ⟨by decide, by decide, ?_, by decide, ?_⟩
  · exact (h.1 1 ⟨1, 1, ⟨0, "png"⟩, "a.png", 0⟩ (by decide) (by decide) rfl
      (by decide)).1
  · exact (h.2 1 1 ⟨1, 1, ⟨0, "png"⟩, "a.png", 0⟩ (by decide) (by decide)).1

theorem processFile_namesOk (eid : Nat) (db : DB) (f : UploadFile)
    (h : NamesOk db) : NamesOk (processFile eid db f) := by
  by_cases ha : allowed_file f.filename = true
  · rw [processFile_accept eid db f ha]
    constructor
    · intro i hi
      simp only [List.mem_append, List.mem_singleton] at hi
      rcases hi with hi | rfl
      · exact Nat.lt_trans (h.1 i hi) (Nat.lt_succ_self _)
      · exact Nat.lt_succ_self _
    · rw [List.pairwise_append]
      refine ⟨h.2, List.pairwise_singleton _ _, ?_⟩
      intro a ha2 b hb
      rw [List.mem_singleton] at hb
      subst hb
      intro heq
      have hlt := h.1 a ha2
      rw [heq] at hlt
      exact Nat.lt_irrefl _ hlt
  · have h2 : allowed_file f.filename = false := by
      cases hx : allowed_file f.filename
      · rfl
      · exact absurd hx ha
    rw [processFile_skip eid db f h2]
    exact h

theorem processFiles_namesOk (eid : Nat) (fs : List UploadFile) :
    ∀ (db : DB), NamesOk db → NamesOk (processFiles eid db fs) := by
  induction fs with
  | nil => intro db h; exact h
  | cons f fs ih => intro db h; exact ih _ (processFile_namesOk eid db f h)

theorem reachable_namesOk (db : DB) (h : Reachable db) : NamesOk db := by
  induction h with
  | init =>
      exact ⟨fun i hi => absurd hi (List.not_mem_nil i), List.Pairwise.nil⟩
  | create db inp _ ih =>
      show NamesOk (processFiles db.nextEventId
        { db with events := db.events ++ [_], nextEventId := db.nextEventId + 1 }
        inp.files)
      exact processFiles_namesOk _ inp.files _ ih
  | update db eid data files _ ih =>
      by_cases hev : db.events.any (fun e => e.id = eid) = true
      · by_cases hcat : categoryCheckViolated data = true
        · have hres : update_event db true eid data files = (500, db) := by
            unfold update_event
            rw [hev, hcat]
            rfl
          rw [hres]
          exact ih
        · have hcat2 : categoryCheckViolated data = false := by
            cases hx : categoryCheckViolated data
            · rfl
            · exact absurd hx hcat
          have hres : update_event db true eid data files =
              (200, processFiles eid { db with events := (db.events.map
                (fun e => if e.id = eid then applyUpdates e data else e)) } files) := by
            unfold update_event
            rw [hev, hcat2]
            rfl
          rw [hres]
          exact processFiles_namesOk eid files _ ih
      · have hev2 : db.events.any (fun e => e.id = eid) = false := by
          cases hx : db.events.any (fun e => e.id = eid)
          · rfl
          · exact absurd hx hev
        have hres : update_event db true eid data files = (404, db) := by
          unfold update_event
          rw [hev2]
          rfl
        rw [hres]
        exact ih
  | delete db eid _ ih =>
      by_cases hev : db.events.any (fun e => e.id = eid) = true
      · have hres : delete_event db true eid =
            (200, { db with
              files := db.files.filter (fun f =>
                !(((db.images.filter (fun i2 => i2.event_id = eid)).map
                  (fun i2 => i2.filename)).contains f)),
              images := db.images.filter (fun i2 => !(i2.event_id = eid)),
              events := db.events.filter (fun e => !(e.id = eid)) }) := by
          unfold delete_event
          rw [hev]
          rfl
        rw [hres]
        exact ⟨fun i hi => ih.1 i (List.mem_filter.mp hi).1,
          List.Pairwise.sublist (List.filter_sublist _) ih.2⟩
      · have hev2 : db.events.any (fun e => e.id = eid) = false := by
          cases hx : db.events.any (fun e => e.id = eid)
          · rfl
          · exact absurd hx hev
        have hres : delete_event db true eid = (404, db) := by
          unfold delete_event
          rw [hev2]
          rfl
        rw [hres]
        exact ih
  | delImg db eid iid _ ih =>
      cases hf : db.images.find? (fun i => i.id = iid && i.event_id = eid) with
      | none =>
          have hres : delete_image db true eid iid = (404, db) := by
            unfold delete_image
            rw [hf]
            rfl
          rw [hres]
          exact ih
      | some row =>
          have hres : delete_image db true eid iid =
              (200, { db with
                files := db.files.filter (fun f => !(f = row.filename)),
                images := db.images.filter (fun i => !(i.id = iid)) }) := by
            unfold delete_image
            rw [hf]
            rfl
          rw [hres]
          exact ⟨fun i hi => ih.1 i (List.mem_filter.mp hi).1,
            List.Pairwise.sublist (List.filter_sublist _) ih.2⟩
  | tick db t _ ih => exact ih

/-- C9: in every state reachable from the initialised store through the API,
no two attachment rows share a stored filename; the uuid4 generator is
modelled as a fresh-token supply, and upload calls are interleaved as the
single-statement serialisation the spec assumes. -/
theorem C9_stored_names_unique (db : DB) (h : Reachable db) :
    db.images.Pairwise (fun a b => a.filename ≠ b.filename) :=
  (reachable_namesOk db h).2

/-- C9, witness: the state reached by one authenticated create call uploading
two files has pairwise-distinct stored names. -/
theorem C9_witness :
    (create_event initDB true
      { files := [⟨"a.png"⟩, ⟨"b.png"⟩] }).2.2.images.Pairwise
      (fun a b => a.filename ≠ b.filename) :=
  C9_stored_names_unique _
    (Reachable.create initDB { files := [⟨"a.png"⟩, ⟨"b.png"⟩] } Reachable.init)

end MessageBoard
